import Mathlib

/-!
Shallow embedding of `src/madymystrava/main.py` (a small Strava API client).

Python strings are embedded as lists of Unicode code points (`List Nat`);
HTTP traffic is embedded by passing each function the response it would
receive as an explicit argument, and by collecting the requests a function
issues and the lines it prints as explicit outputs.
-/

set_option maxRecDepth 8192

namespace MadyMyStrava

/-- Converts a Lean string literal to the code-point list embedding of a Python `str`. -/
def strToCodes (s : String) : List Nat :=
  s.data.map Char.toNat

/-- Predicate for a Unicode scalar value: the code points a Python `str` can hold
and UTF-8 encode (lone surrogates make `urllib.parse.quote` raise, so they are
outside the domain of the functions modelled here). -/
def validCP (n : Nat) : Prop :=
  n < 0xD800 ∨ (0xDFFF < n ∧ n < 0x110000)

instance (n : Nat) : Decidable (validCP n) := by
  unfold validCP; infer_instance

/-- UTF-8 encoding of one code point (`n < 0x110000`), as used by
`urllib.parse.quote` before percent-encoding. -/
def utf8EncodeChar (n : Nat) : List Nat :=
  if n < 0x80 then [n]
  else if n < 0x800 then [0xC0 + n / 64, 0x80 + n % 64]
  else if n < 0x10000 then [0xE0 + n / 4096, 0x80 + (n / 64) % 64, 0x80 + n % 64]
  else [0xF0 + n / 262144, 0x80 + (n / 4096) % 64, 0x80 + (n / 64) % 64, 0x80 + n % 64]

/-- The bytes `urllib.parse.quote` never escapes (ASCII letters, digits, and
the characters underscore, dot, hyphen, tilde). -/
def pySafeByte (b : Nat) : Bool :=
  (65 ≤ b && b ≤ 90) || (97 ≤ b && b ≤ 122) || (48 ≤ b && b ≤ 57) ||
    b == 95 || b == 46 || b == 45 || b == 126

/-- Uppercase hexadecimal digit for `n < 16`, as a code point. -/
def hexDigitUpper (n : Nat) : Nat :=
  if n < 10 then 48 + n else 55 + n

/-- How `urllib.parse.quote_plus` renders one UTF-8 byte: safe bytes pass
through, a space becomes a plus sign, every other byte becomes a
percent-escape with uppercase hex digits. -/
def quoteByte (b : Nat) : List Nat :=
  if pySafeByte b then [b]
  else if b == 32 then [43]
  else [37, hexDigitUpper (b / 16), hexDigitUpper (b % 16)]

/-- Embedding of `urllib.parse.quote_plus`: UTF-8 encode the code points,
then render each byte. -/
def quote_plus (s : List Nat) : List Nat :=
  ((s.map utf8EncodeChar).flatten.map quoteByte).flatten

/-- Embedding of `urllib.parse.urlencode` on an ordered parameter list:
quote each key and value with `quote_plus`, join pairs with an equals sign
and the pairs with ampersands (Python dicts preserve insertion order). -/
def urlencode (params : List (List Nat × List Nat)) : List Nat :=
  List.intercalate [38] (params.map (fun p => quote_plus p.1 ++ [61] ++ quote_plus p.2))

/-- Embedding of `build_auth_url` (main.py lines 11-18): the authorize
endpoint with the four query parameters in source order. -/
def build_auth_url (client_id redirect_uri : List Nat) : List Nat :=
  strToCodes "https://www.strava.com/oauth/authorize?" ++
    urlencode [(strToCodes "client_id", client_id),
               (strToCodes "redirect_uri", redirect_uri),
               (strToCodes "response_type", strToCodes "code"),
               (strToCodes "scope", strToCodes "read,activity:read,activity:write")]

/-- A Python scalar value as it can occur inside the provider's parsed JSON
(only the shapes the script ever distinguishes: strings versus everything
else, since line 92 checks `type(REFRESH_TOKEN) is not str`). -/
inductive PyVal where
  | str (s : List Nat)
  | int (n : Int)
  | null
  deriving DecidableEq, Repr

/-- A parsed JSON object body for the token endpoints, as the key-value pairs
in order. -/
def TokenDict := List (List Nat × PyVal)

instance : DecidableEq TokenDict := by
  unfold TokenDict; infer_instance

/-- Embedding of Python `dict.get(key, default)`: the value of the first
matching key, or the default. -/
def dictGet (d : TokenDict) (key : List Nat) (default : PyVal) : PyVal :=
  match d.find? (fun p => p.1 = key) with
  | some p => p.2
  | none => default

/-- An HTTP response to a token-endpoint POST, with its JSON body already
parsed (the claims about these functions presuppose a JSON-decodable body). -/
structure TokenResponse where
  status_code : Nat
  body : TokenDict

/-- Embedding of `get_strava_tokens` (main.py lines 20-32).  The network is an
explicit input: `response` is what `requests.post` returns for the built
payload.  Result: the dictionary the function returns, paired with the list of
error bodies it prints (line 31 prints the body on non-200). -/
def get_strava_tokens (client_id client_secret authorization_code : List Nat)
    (response : TokenResponse) : TokenDict × List TokenDict :=
  let _payload : List (List Nat × List Nat) :=
    [(strToCodes "client_id", client_id),
     (strToCodes "client_secret", client_secret),
     (strToCodes "code", authorization_code),
     (strToCodes "grant_type", strToCodes "authorization_code")]
  if response.status_code = 200 then
    (response.body, [])
  else
    ([], [response.body])

/-- Embedding of `refresh_strava_token` (main.py lines 34-46), same
request-response contract as `get_strava_tokens` but with the refresh grant. -/
def refresh_strava_token (client_id client_secret refresh_token : List Nat)
    (response : TokenResponse) : TokenDict × List TokenDict :=
  let _payload : List (List Nat × List Nat) :=
    [(strToCodes "client_id", client_id),
     (strToCodes "client_secret", client_secret),
     (strToCodes "refresh_token", refresh_token),
     (strToCodes "grant_type", strToCodes "refresh_token")]
  if response.status_code = 200 then
    (response.body, [])
  else
    ([], [response.body])

/-- One activity object from the provider's JSON array.  Each field is
optional because the JSON object may omit the key; Python subscripting
`activity[k]` raises `KeyError` on a missing key. -/
structure Activity where
  id : Option Int
  name : Option (List Nat)
  type : Option (List Nat)
  deriving DecidableEq, Repr

/-- An HTTP response to the activities-listing GET, with its JSON array body
already parsed. -/
structure ListResponse where
  status_code : Nat
  body : List Activity

/-- The filtering comprehension of line 57,
`[activity for activity in activities if activity['type'] == 'Yoga']`:
subscripting each element's `type` key in order, propagating `KeyError`. -/
def filterYoga : List Activity → Except (List Nat) (List Activity)
  | [] => .ok []
  | a :: rest =>
    match a.type with
    | none => .error (strToCodes "KeyError: type")
    | some t =>
      match filterYoga rest with
      | .error e => .error e
      | .ok tail => if t = strToCodes "Yoga" then .ok (a :: tail) else .ok tail

/-- Embedding of `get_yoga_activities` (main.py lines 48-60).  On 200 it runs
the filtering comprehension (which may raise); on non-200 it prints and
returns the empty list.  `access_token` may be any value the orchestrator
passes (line 98 can produce a non-string); `after` is the query timestamp. -/
def get_yoga_activities (access_token : PyVal) (after : Int)
    (response : ListResponse) : Except (List Nat) (List Activity) :=
  let _url := strToCodes "https://www.strava.com/api/v3/athlete/activities"
  let _params : List (List Nat × Int) := [(strToCodes "after", after), (strToCodes "per_page", 100)]
  if response.status_code = 200 then
    filterYoga response.body
  else
    .ok []

/-- The one PUT request `update_activity_name` sends. -/
structure PutCall where
  url : List Nat
  name_param : List Nat
  deriving DecidableEq, Repr

/-- Embedding of `update_activity_name` (main.py lines 62-72).  Returns the
PUT requests it issues and the lines it prints; the function itself returns
`None` in Python and its status handling only selects which line to print. -/
def update_activity_name (access_token : PyVal) (activity_id : Int)
    (new_name : List Nat) (response_status : Nat) : List PutCall × List (List Nat) :=
  let url := strToCodes "https://www.strava.com/api/v3/activities/" ++ strToCodes (toString activity_id)
  let call : PutCall := { url := url, name_param := new_name }
  if response_status = 200 then
    ([call], [strToCodes "Successfully updated activity " ++ strToCodes (toString activity_id)])
  else
    ([call], [strToCodes "Error"])

/-- The process environment at startup (`os.getenv` results). -/
structure Env where
  STRAVA_CLIENT_ID : Option (List Nat)
  STRAVA_CLIENT_SECRET : Option (List Nat)
  STRAVA_REFRESH_TOKEN : Option (List Nat)

/-- Everything external one run of the script consumes: the environment, the
interactively entered authorization code, and the responses the provider gives
to the exchange POST, the refresh POST and the activities GET. -/
structure World where
  env : Env
  auth_code : List Nat
  exchange_response : TokenResponse
  refresh_response : TokenResponse
  activities_response : ListResponse

/-- Python truthiness of `os.getenv` output: `None` and the empty string are
falsy (line 87 tests `if not REFRESH_TOKEN`). -/
def truthy : Option (List Nat) → Bool
  | Option.none => false
  | some s => !s.isEmpty

/-- How one run of the script ends: `exit(n)`, or an uncaught exception. -/
inductive Outcome where
  | exited (code : Nat)
  | crashed (msg : List Nat)
  deriving DecidableEq, Repr

/-- The observable side effects of one run: the `set_key` writes to the `.env`
file (file, key, value), the Activity Updater invocations (activity id, new
name) in order, and how the process ended. -/
structure RunTrace where
  set_key_calls : List (List Nat × List Nat × List Nat)
  update_calls : List (Int × List Nat)
  outcome : Outcome
  deriving DecidableEq, Repr

/-- The fixed target name of main.py line 85. -/
def NEW_NAME : List Nat := strToCodes "#yogamitmady"

/-- The rename loop of main.py lines 107-109: for each activity whose `name`
differs from `NEW_NAME`, invoke the Activity Updater with its `id`; the
subscripts `activity['name']` and `activity['id']` raise on a missing key,
keeping the updater calls already made. -/
def rename_loop : List Activity → List (Int × List Nat) × Option (List Nat)
  | [] => ([], Option.none)
  | a :: rest =>
    match a.name with
    | Option.none => ([], some (strToCodes "KeyError: name"))
    | some nm =>
      if nm ≠ NEW_NAME then
        match a.id with
        | Option.none => ([], some (strToCodes "KeyError: id"))
        | some i =>
          let r := rename_loop rest
          ((i, NEW_NAME) :: r.1, r.2)
      else
        rename_loop rest

/-- The tail of the orchestrator shared by both paths (main.py lines 97-109):
refresh the token, read `access_token` with default the empty string, fetch
and filter activities, then run the rename loop.  `writes` carries the
`set_key` calls already performed. -/
def run_rest (CLIENT_ID CLIENT_SECRET REFRESH_TOKEN : List Nat)
    (writes : List (List Nat × List Nat × List Nat)) (w : World) : RunTrace :=
  let token_data := (refresh_strava_token CLIENT_ID CLIENT_SECRET REFRESH_TOKEN w.refresh_response).1
  let ACCESS_TOKEN := dictGet token_data (strToCodes "access_token") (PyVal.str [])
  match get_yoga_activities ACCESS_TOKEN 0 w.activities_response with
  | .error e => { set_key_calls := writes, update_calls := [], outcome := .crashed e }
  | .ok yoga_activities =>
    let r := rename_loop yoga_activities
    { set_key_calls := writes,
      update_calls := r.1,
      outcome := match r.2 with
                 | Option.none => .exited 0
                 | some e => .crashed e }

/-- Embedding of the `__main__` block (main.py lines 74-109).  The `after`
timestamp is time-dependent and irrelevant to the modelled behaviour, so the
fetch is invoked with timestamp 0. -/
def run_main (w : World) : RunTrace :=
  match w.env.STRAVA_CLIENT_ID, w.env.STRAVA_CLIENT_SECRET with
  | Option.none, _ =>
    { set_key_calls := [], update_calls := [], outcome := .exited 1 }
  | some _, Option.none =>
    { set_key_calls := [], update_calls := [], outcome := .exited 1 }
  | some CLIENT_ID, some CLIENT_SECRET =>
    if truthy w.env.STRAVA_REFRESH_TOKEN = false then
      let token_data := (get_strava_tokens CLIENT_ID CLIENT_SECRET w.auth_code w.exchange_response).1
      match dictGet token_data (strToCodes "refresh_token") (PyVal.str []) with
      | PyVal.str REFRESH_TOKEN =>
        run_rest CLIENT_ID CLIENT_SECRET REFRESH_TOKEN
          [(strToCodes ".env", strToCodes "STRAVA_REFRESH_TOKEN", REFRESH_TOKEN)] w
      | _ =>
        { set_key_calls := [], update_calls := [], outcome := .exited 1 }
    else
      run_rest CLIENT_ID CLIENT_SECRET (w.env.STRAVA_REFRESH_TOKEN.getD []) [] w

/-!
Modelled from the spec: the testable property section asks that the produced
URL's "query string, when parsed, round-trips" to the input mapping.  The
parser is not part of the repository, so the standard
application/x-www-form-urlencoded parse is modelled here: take the part of
the URL after the first question mark, split it on ampersands, split each
pair at its first equals sign, and decode names and values by replacing plus
signs with spaces, percent-decoding to bytes and UTF-8-decoding the bytes.
-/

/-- Value of a hexadecimal digit code point, accepting both cases. -/
def hexVal (c : Nat) : Option Nat :=
  if 48 ≤ c ∧ c ≤ 57 then some (c - 48)
  else if 65 ≤ c ∧ c ≤ 70 then some (c - 55)
  else if 97 ≤ c ∧ c ≤ 102 then some (c - 87)
  else none

/-- Replaces every plus sign by a space, the first step of plus-aware query
decoding. -/
def plusToSpace (s : List Nat) : List Nat :=
  s.map (fun c => if c = 43 then 32 else c)

/-- Percent-decoding to bytes: a percent sign followed by two hex digits
becomes one byte; a percent sign not followed by two hex digits stays
literal; everything else passes through. -/
def percentDecode : List Nat → List Nat
  | [] => []
  | b :: rest =>
    if b = 37 then
      match rest with
      | c1 :: c2 :: rest2 =>
        match hexVal c1, hexVal c2 with
        | some h, some l => (16 * h + l) :: percentDecode rest2
        | _, _ => 37 :: percentDecode (c1 :: c2 :: rest2)
      | [c1] => 37 :: percentDecode [c1]
      | [] => [37]
    else b :: percentDecode rest
termination_by l => l.length
decreasing_by all_goals simp <;> omega

/-- Tests for a UTF-8 continuation byte. -/
def isCont (b : Nat) : Bool :=
  decide (128 ≤ b) && decide (b ≤ 191)

mutual

/-- UTF-8 decoding of a byte list to code points; a malformed sequence yields
the replacement character and is skipped (only well-formed sequences appear in
the claims here). -/
def utf8DecodeList : List Nat → List Nat
  | [] => []
  | b :: rest =>
    if b < 128 then b :: utf8DecodeList rest
    else if b < 192 then 0xFFFD :: utf8DecodeList rest
    else if b < 224 then utf8DecodeTwo b rest
    else if b < 240 then utf8DecodeThree b rest
    else utf8DecodeFour b rest
termination_by l => 2 * l.length + 1

/-- Continuation of a two-byte UTF-8 sequence whose lead byte is `b`. -/
def utf8DecodeTwo (b : Nat) : List Nat → List Nat
  | b1 :: rest2 =>
    if isCont b1 then ((b - 192) * 64 + (b1 - 128)) :: utf8DecodeList rest2
    else 0xFFFD :: utf8DecodeList rest2
  | [] => [0xFFFD]
termination_by l => 2 * l.length + 2

/-- Continuation of a three-byte UTF-8 sequence whose lead byte is `b`. -/
def utf8DecodeThree (b : Nat) : List Nat → List Nat
  | b1 :: b2 :: rest3 =>
    if isCont b1 && isCont b2 then
      ((b - 224) * 4096 + (b1 - 128) * 64 + (b2 - 128)) :: utf8DecodeList rest3
    else 0xFFFD :: utf8DecodeList rest3
  | _ => [0xFFFD]
termination_by l => 2 * l.length + 2

/-- Continuation of a four-byte UTF-8 sequence whose lead byte is `b`. -/
def utf8DecodeFour (b : Nat) : List Nat → List Nat
  | b1 :: b2 :: b3 :: rest4 =>
    if isCont b1 && isCont b2 && isCont b3 then
      ((b - 240) * 262144 + (b1 - 128) * 4096 + (b2 - 128) * 64 + (b3 - 128)) ::
        utf8DecodeList rest4
    else 0xFFFD :: utf8DecodeList rest4
  | _ => [0xFFFD]
termination_by l => 2 * l.length + 2

end

/-- Inverse of `quote_plus` on well-formed input: plus signs to spaces,
percent-decode, UTF-8 decode. -/
def unquote_plus (s : List Nat) : List Nat :=
  utf8DecodeList (percentDecode (plusToSpace s))

/-- Splits a list at every occurrence of `sep`, keeping empty groups. -/
def splitSep (sep : Nat) : List Nat → List (List Nat)
  | [] => [[]]
  | b :: rest =>
    match splitSep sep rest with
    | [] => [[b]]
    | g :: gs => if b = sep then [] :: g :: gs else (b :: g) :: gs

/-- Splits a list at the first occurrence of `sep` (everything, paired with
the empty list, when `sep` does not occur). -/
def splitFirst (sep : Nat) : List Nat → List Nat × List Nat
  | [] => ([], [])
  | b :: rest =>
    if b = sep then ([], rest)
    else
      let r := splitFirst sep rest
      (b :: r.1, r.2)

/-- The query string of a URL: the part after the first question mark. -/
def query_string (url : List Nat) : List Nat :=
  (splitFirst 63 url).2

/-- Parses a query string into its ordered name-value mapping. -/
def parse_query (q : List Nat) : List (List Nat × List Nat) :=
  (splitSep 38 q).map (fun pair =>
    let nv := splitFirst 61 pair
    (unquote_plus nv.1, unquote_plus nv.2))

/-! Round-trip lemmas for the encode-then-parse property. -/

/-- Decoding an uppercase hex digit gives back its value. -/
theorem hexVal_hexDigitUpper (n : Nat) (h : n < 16) :
    hexVal (hexDigitUpper n) = some n := by
  unfold hexVal hexDigitUpper
  by_cases h10 : n < 10
  · rw [if_pos h10, if_pos (by omega)]
    congr 1
    omega
  · rw [if_neg h10, if_neg (by omega), if_pos (by omega)]
    congr 1
    omega

/-- Unfolding lemma: percent-decoding the empty list. -/
theorem percentDecode_nil : percentDecode [] = [] := by
  simp only [percentDecode]

/-- Unfolding lemma: a non-percent head passes through percent-decoding. -/
theorem percentDecode_cons_ne (b : Nat) (hb : b ≠ 37) (tail : List Nat) :
    percentDecode (b :: tail) = b :: percentDecode tail := by
  conv_lhs => unfold percentDecode
  rw [if_neg hb]

/-- Unfolding lemma: a percent escape with two hex digits decodes to its byte. -/
theorem percentDecode_percent (c1 c2 v1 v2 : Nat) (h1 : hexVal c1 = some v1)
    (h2 : hexVal c2 = some v2) (tail : List Nat) :
    percentDecode (37 :: c1 :: c2 :: tail) = (16 * v1 + v2) :: percentDecode tail := by
  conv_lhs => unfold percentDecode
  rw [if_pos rfl]
  simp only [h1, h2]

/-- Every byte of the UTF-8 encoding of a code point fits in a byte. -/
theorem utf8EncodeChar_lt_256 (n : Nat) (h : n < 0x110000) :
    ∀ b ∈ utf8EncodeChar n, b < 256 := by
  intro b hb
  unfold utf8EncodeChar at hb
  by_cases h1 : n < 128
  · rw [if_pos h1] at hb
    simp at hb
    omega
  · rw [if_neg h1] at hb
    by_cases h2 : n < 2048
    · rw [if_pos h2] at hb
      simp at hb
      rcases hb with rfl | rfl <;> omega
    · rw [if_neg h2] at hb
      by_cases h3 : n < 65536
      · rw [if_pos h3] at hb
        simp at hb
        rcases hb with rfl | rfl | rfl <;> omega
      · rw [if_neg h3] at hb
        simp at hb
        rcases hb with rfl | rfl | rfl | rfl <;> omega

/-- Percent-plus-decoding one quoted byte peels it off, whatever follows. -/
theorem percentDecode_plusToSpace_quoteByte (b : Nat) (hb : b < 256) (tail : List Nat) :
    percentDecode (plusToSpace (quoteByte b) ++ tail) = b :: percentDecode tail := by
  unfold quoteByte
  by_cases hs : pySafeByte b = true
  · have hb43 : b ≠ 43 := by simp [pySafeByte] at hs; omega
    have hb37 : b ≠ 37 := by simp [pySafeByte] at hs; omega
    rw [if_pos hs]
    simp only [plusToSpace, List.map_cons, List.map_nil, if_neg hb43, List.cons_append,
      List.nil_append]
    exact percentDecode_cons_ne b hb37 tail
  · by_cases h32 : b = 32
    · subst h32
      rw [if_neg hs, if_pos (by norm_num)]
      rw [show plusToSpace [43] = [32] from rfl, List.singleton_append]
      exact percentDecode_cons_ne 32 (by omega) tail
    · rw [if_neg hs, if_neg (by simp [h32])]
      have hu1 : hexDigitUpper (b / 16) ≠ 43 := by unfold hexDigitUpper; split <;> omega
      have hu2 : hexDigitUpper (b % 16) ≠ 43 := by unfold hexDigitUpper; split <;> omega
      simp only [plusToSpace, List.map_cons, List.map_nil, if_neg hu1, if_neg hu2,
        if_neg (show (37 : Nat) ≠ 43 by omega), List.cons_append, List.nil_append]
      rw [percentDecode_percent _ _ _ _ (hexVal_hexDigitUpper (b / 16) (by omega))
        (hexVal_hexDigitUpper (b % 16) (by omega))]
      congr 1
      omega

/-- Plus-to-space replacement distributes over concatenation. -/
theorem plusToSpace_append (x y : List Nat) :
    plusToSpace (x ++ y) = plusToSpace x ++ plusToSpace y :=
  List.map_append _ x y

/-- Percent-plus-decoding a whole quoted byte string recovers the bytes,
whatever follows. -/
theorem percentDecode_quotedBytes (bs : List Nat) (h : ∀ b ∈ bs, b < 256) (tail : List Nat) :
    percentDecode (plusToSpace ((bs.map quoteByte).flatten) ++ tail) =
      bs ++ percentDecode tail := by
  induction bs with
  | nil => simp [plusToSpace]
  | cons b rest ih =>
    simp only [List.map_cons, List.flatten_cons]
    rw [plusToSpace_append, List.append_assoc,
      percentDecode_plusToSpace_quoteByte b (h b (List.mem_cons_self b rest)),
      ih (fun x hx => h x (List.mem_cons_of_mem b hx)), List.cons_append]

/-- UTF-8 decoding peels off the encoding of one code point, whatever
follows. -/
theorem utf8DecodeList_encodeChar (n : Nat) (h : n < 0x110000) (tail : List Nat) :
    utf8DecodeList (utf8EncodeChar n ++ tail) = n :: utf8DecodeList tail := by
  unfold utf8EncodeChar
  by_cases h1 : n < 128
  · rw [if_pos h1, List.singleton_append]
    conv_lhs => unfold utf8DecodeList
    rw [if_pos h1]
  · rw [if_neg h1]
    by_cases h2 : n < 2048
    · rw [if_pos h2, List.cons_append, List.cons_append, List.nil_append]
      conv_lhs => unfold utf8DecodeList
      rw [if_neg (by omega), if_neg (by omega), if_pos (by omega)]
      conv_lhs => unfold utf8DecodeTwo
      have hc : isCont (128 + n % 64) = true := by
        simp only [isCont, Bool.and_eq_true, decide_eq_true_eq]
        omega
      rw [if_pos hc]
      congr 1
      omega
    · rw [if_neg h2]
      by_cases h3 : n < 65536
      · rw [if_pos h3, List.cons_append, List.cons_append, List.cons_append, List.nil_append]
        conv_lhs => unfold utf8DecodeList
        rw [if_neg (by omega), if_neg (by omega), if_neg (by omega), if_pos (by omega)]
        conv_lhs => unfold utf8DecodeThree
        have hc : (isCont (128 + n / 64 % 64) && isCont (128 + n % 64)) = true := by
          simp only [isCont, Bool.and_eq_true, decide_eq_true_eq]
          omega
        rw [if_pos hc]
        congr 1
        omega
      · rw [if_neg h3, List.cons_append, List.cons_append, List.cons_append, List.cons_append,
          List.nil_append]
        conv_lhs => unfold utf8DecodeList
        rw [if_neg (by omega), if_neg (by omega), if_neg (by omega), if_neg (by omega)]
        conv_lhs => unfold utf8DecodeFour
        have hc : (isCont (128 + n / 4096 % 64) && isCont (128 + n / 64 % 64) &&
            isCont (128 + n % 64)) = true := by
          simp only [isCont, Bool.and_eq_true, decide_eq_true_eq]
          omega
        rw [if_pos hc]
        congr 1
        omega

/-- Unfolding lemma: UTF-8 decoding of the empty byte list. -/
theorem utf8DecodeList_nil : utf8DecodeList [] = [] := by
  simp only [utf8DecodeList]

/-- UTF-8 decoding inverts the encoding of a code-point list. -/
theorem utf8DecodeList_encodes (s : List Nat) (h : ∀ n ∈ s, n < 0x110000) :
    utf8DecodeList ((s.map utf8EncodeChar).flatten) = s := by
  induction s with
  | nil => exact utf8DecodeList_nil
  | cons n rest ih =>
    simp only [List.map_cons, List.flatten_cons]
    rw [utf8DecodeList_encodeChar n (h n (List.mem_cons_self n rest)),
      ih (fun x hx => h x (List.mem_cons_of_mem n hx))]

/-- The decode side inverts `quote_plus` on every sequence of Unicode scalar
values. -/
theorem unquote_plus_quote_plus (s : List Nat) (h : ∀ n ∈ s, validCP n) :
    unquote_plus (quote_plus s) = s := by
  unfold unquote_plus quote_plus
  have hbytes : ∀ b ∈ (s.map utf8EncodeChar).flatten, b < 256 := by
    intro b hb
    simp only [List.mem_flatten, List.mem_map] at hb
    obtain ⟨l, ⟨n, hn, rfl⟩, hbl⟩ := hb
    exact utf8EncodeChar_lt_256 n (by rcases h n hn with h' | h' <;> omega) b hbl
  have hpd := percentDecode_quotedBytes ((s.map utf8EncodeChar).flatten) hbytes []
  rw [List.append_nil] at hpd
  rw [hpd, percentDecode_nil, List.append_nil]
  exact utf8DecodeList_encodes s (fun n hn => by rcases h n hn with h' | h' <;> omega)

/-- Unfolding lemma: one step of `splitSep`. -/
theorem splitSep_cons (sep b : Nat) (rest : List Nat) :
    splitSep sep (b :: rest) =
      match splitSep sep rest with
      | [] => [[b]]
      | g :: gs => if b = sep then [] :: g :: gs else (b :: g) :: gs := rfl

/-- Unfolding lemma: one step of `splitFirst`. -/
theorem splitFirst_cons (sep b : Nat) (rest : List Nat) :
    splitFirst sep (b :: rest) =
      if b = sep then ([], rest)
      else (b :: (splitFirst sep rest).1, (splitFirst sep rest).2) := rfl

/-- Splitting never produces the empty group list. -/
theorem splitSep_ne_nil (sep : Nat) (l : List Nat) : splitSep sep l ≠ [] := by
  cases l with
  | nil => simp [splitSep]
  | cons b rest =>
    rw [splitSep_cons]
    rcases hsr : splitSep sep rest with _ | ⟨g, gs⟩
    · simp
    · by_cases hb : b = sep <;> simp [hb]

/-- A list without the separator splits into the single group it is. -/
theorem splitSep_no_sep (sep : Nat) (xs : List Nat) (h : ∀ c ∈ xs, c ≠ sep) :
    splitSep sep xs = [xs] := by
  induction xs with
  | nil => rfl
  | cons b rest ih =>
    have hb := h b (List.mem_cons_self b rest)
    rw [splitSep_cons, ih (fun c hc => h c (List.mem_cons_of_mem b hc))]
    simp [hb]

/-- Splitting peels off a separator-free prefix before a separator. -/
theorem splitSep_append (sep : Nat) (xs ys : List Nat) (h : ∀ c ∈ xs, c ≠ sep) :
    splitSep sep (xs ++ sep :: ys) = xs :: splitSep sep ys := by
  induction xs with
  | nil =>
    rw [List.nil_append, splitSep_cons]
    rcases hys : splitSep sep ys with _ | ⟨g, gs⟩
    · exact absurd hys (splitSep_ne_nil sep ys)
    · simp
  | cons b rest ih =>
    have hb := h b (List.mem_cons_self b rest)
    rw [List.cons_append, splitSep_cons, ih (fun c hc => h c (List.mem_cons_of_mem b hc))]
    simp [hb]

/-- Splitting at the first separator occurrence after a separator-free
prefix. -/
theorem splitFirst_append (sep : Nat) (xs ys : List Nat) (h : ∀ c ∈ xs, c ≠ sep) :
    splitFirst sep (xs ++ sep :: ys) = (xs, ys) := by
  induction xs with
  | nil =>
    rw [List.nil_append, splitFirst_cons]
    simp
  | cons b rest ih =>
    have hb := h b (List.mem_cons_self b rest)
    rw [List.cons_append, splitFirst_cons, ih (fun c hc => h c (List.mem_cons_of_mem b hc))]
    simp [hb]

/-- Quoted output never contains an ampersand, an equals sign or a question
mark, so query-string structure survives the encoding. -/
theorem quote_plus_ne_seps (s : List Nat) :
    ∀ c ∈ quote_plus s, c ≠ 38 ∧ c ≠ 61 ∧ c ≠ 63 := by
  intro c hc
  unfold quote_plus at hc
  simp only [List.mem_flatten, List.mem_map] at hc
  obtain ⟨l, ⟨b, _, rfl⟩, hcl⟩ := hc
  unfold quoteByte at hcl
  by_cases hs : pySafeByte b = true
  · rw [if_pos hs] at hcl
    simp only [List.mem_singleton] at hcl
    subst hcl
    simp [pySafeByte] at hs
    refine ⟨?_, ?_, ?_⟩ <;> omega
  · rw [if_neg hs] at hcl
    by_cases h32 : b = 32
    · rw [if_pos (by simp [h32])] at hcl
      simp only [List.mem_singleton] at hcl
      omega
    · rw [if_neg (by simp [h32])] at hcl
      simp only [List.mem_cons, List.not_mem_nil, or_false] at hcl
      rcases hcl with rfl | rfl | rfl
      · omega
      · unfold hexDigitUpper
        split <;> refine ⟨?_, ?_, ?_⟩ <;> omega
      · unfold hexDigitUpper
        split <;> refine ⟨?_, ?_, ?_⟩ <;> omega

/-- One encoded query pair contains no ampersand. -/
theorem pair_no_amp (k v : List Nat) :
    ∀ c ∈ quote_plus k ++ [61] ++ quote_plus v, c ≠ 38 := by
  intro c hc
  simp only [List.append_assoc, List.mem_append, List.mem_cons, List.not_mem_nil,
    or_false] at hc
  rcases hc with hc | hc | hc
  · exact (quote_plus_ne_seps k c hc).1
  · omega
  · exact (quote_plus_ne_seps v c hc).1

/-- Splitting an encoded query pair at its equals sign recovers the quoted
name and value. -/
theorem splitFirst_pair (k v : List Nat) :
    splitFirst 61 (quote_plus k ++ [61] ++ quote_plus v) = (quote_plus k, quote_plus v) := by
  rw [List.append_assoc, List.singleton_append,
    splitFirst_append 61 _ _ (fun c hc => (quote_plus_ne_seps k c hc).2.1)]

/-- Parsing the encoding of a four-entry parameter list yields the decoded
pairs in order. -/
theorem parse_query_four (k1 v1 k2 v2 k3 v3 k4 v4 : List Nat) :
    parse_query (urlencode [(k1, v1), (k2, v2), (k3, v3), (k4, v4)]) =
      [(unquote_plus (quote_plus k1), unquote_plus (quote_plus v1)),
       (unquote_plus (quote_plus k2), unquote_plus (quote_plus v2)),
       (unquote_plus (quote_plus k3), unquote_plus (quote_plus v3)),
       (unquote_plus (quote_plus k4), unquote_plus (quote_plus v4))] := by
  have hurl : urlencode [(k1, v1), (k2, v2), (k3, v3), (k4, v4)] =
      (quote_plus k1 ++ [61] ++ quote_plus v1) ++ 38 ::
        ((quote_plus k2 ++ [61] ++ quote_plus v2) ++ 38 ::
          ((quote_plus k3 ++ [61] ++ quote_plus v3) ++ 38 ::
            ((quote_plus k4 ++ [61] ++ quote_plus v4) ++ []))) := rfl
  rw [hurl, List.append_nil]
  unfold parse_query
  rw [splitSep_append 38 _ _ (pair_no_amp k1 v1),
    splitSep_append 38 _ _ (pair_no_amp k2 v2),
    splitSep_append 38 _ _ (pair_no_amp k3 v3),
    splitSep_no_sep 38 _ (pair_no_amp k4 v4)]
  simp only [List.map_cons, List.map_nil, splitFirst_pair]

/-! Helper lemmas shared by several claim theorems. -/

/-- The filtering comprehension equals `List.filter` when every element has a
`type` key. -/
theorem filterYoga_eq_filter (acts : List Activity)
    (h : ∀ a ∈ acts, a.type.isSome = true) :
    filterYoga acts = .ok (acts.filter (fun a => a.type == some (strToCodes "Yoga"))) := by
  induction acts with
  | nil => rfl
  | cons a rest ih =>
    obtain ⟨t, ht⟩ := Option.isSome_iff_exists.mp (h a (List.mem_cons_self a rest))
    have hrest := ih (fun x hx => h x (List.mem_cons_of_mem a hx))
    rw [List.filter_cons]
    simp only [filterYoga, ht, hrest]
    by_cases hy : t = strToCodes "Yoga" <;> simp [hy, ht]

/-- The rename loop, on activities that all carry `name` and `id` keys, makes
exactly the updater calls for the activities whose name differs from
`NEW_NAME`, in order, and does not crash. -/
theorem rename_loop_eq_filter (acts : List Activity)
    (h : ∀ a ∈ acts, a.name.isSome = true ∧ a.id.isSome = true) :
    rename_loop acts =
      ((acts.filter (fun a => a.name != some NEW_NAME)).map (fun a => (a.id.getD 0, NEW_NAME)),
        Option.none) := by
  induction acts with
  | nil => rfl
  | cons a rest ih =>
    obtain ⟨nm, hnm⟩ := Option.isSome_iff_exists.mp (h a (List.mem_cons_self a rest)).1
    obtain ⟨i, hi⟩ := Option.isSome_iff_exists.mp (h a (List.mem_cons_self a rest)).2
    have hrest := ih (fun x hx => h x (List.mem_cons_of_mem a hx))
    rw [List.filter_cons]
    simp only [rename_loop, hnm, hi, hrest]
    by_cases hne : nm = NEW_NAME <;> simp [hne, hnm, hi]

/-- The shared tail of the orchestrator never adds a `set_key` write. -/
theorem run_rest_set_key_calls (cid csec rt : List Nat)
    (writes : List (List Nat × List Nat × List Nat)) (w : World) :
    (run_rest cid csec rt writes w).set_key_calls = writes := by
  simp only [run_rest]
  split <;> rfl

/-! Concrete runs of the orchestrator used by individual claims. -/

/-- First run (no refresh token in the environment) in which the token
exchange fails with HTTP 400, so `get_strava_tokens` returns the empty
dictionary; the later responses are failures as well. -/
def firstRunFailedExchangeWorld : World :=
  { env := { STRAVA_CLIENT_ID := some (strToCodes "id"),
             STRAVA_CLIENT_SECRET := some (strToCodes "secret"),
             STRAVA_REFRESH_TOKEN := Option.none },
    auth_code := strToCodes "authcode",
    exchange_response := { status_code := 400,
                           body := [(strToCodes "message", PyVal.str (strToCodes "Bad Request"))] },
    refresh_response := { status_code := 400, body := [] },
    activities_response := { status_code := 401, body := [] } }

/-- A run whose environment has `STRAVA_REFRESH_TOKEN` present but equal to
the empty string, and whose token exchange succeeds. -/
def emptyEnvTokenWorld : World :=
  { env := { STRAVA_CLIENT_ID := some (strToCodes "id"),
             STRAVA_CLIENT_SECRET := some (strToCodes "secret"),
             STRAVA_REFRESH_TOKEN := some [] },
    auth_code := strToCodes "authcode",
    exchange_response := { status_code := 200,
                           body := [(strToCodes "refresh_token", PyVal.str (strToCodes "tok")),
                                    (strToCodes "access_token", PyVal.str (strToCodes "acc"))] },
    refresh_response := { status_code := 200,
                          body := [(strToCodes "access_token", PyVal.str (strToCodes "acc2"))] },
    activities_response := { status_code := 200, body := [] } }

/-- A run whose environment carries a non-empty `STRAVA_REFRESH_TOKEN`. -/
def presetTokenWorld : World :=
  { env := { STRAVA_CLIENT_ID := some (strToCodes "id"),
             STRAVA_CLIENT_SECRET := some (strToCodes "secret"),
             STRAVA_REFRESH_TOKEN := some (strToCodes "tok") },
    auth_code := [],
    exchange_response := { status_code := 400, body := [] },
    refresh_response := { status_code := 200,
                          body := [(strToCodes "access_token", PyVal.str (strToCodes "acc2"))] },
    activities_response := { status_code := 200, body := [] } }

/-! Claim theorems. -/

/-- C1: the claim says a first-run token exchange lacking a valid
refresh_token aborts with exit code 1, persisting nothing.  The code instead
lets the failed exchange's default empty string pass the `is not str` check:
this run persists the empty string to `.env` and proceeds to the refresh and
fetch steps, ending with exit code 0. -/
theorem first_run_failed_exchange_persists_and_proceeds :
    run_main firstRunFailedExchangeWorld =
      { set_key_calls := [(strToCodes ".env", strToCodes "STRAVA_REFRESH_TOKEN", [])],
        update_calls := [],
        outcome := .exited 0 } := by
  decide

/-- C2 counterexample: on the spec's example input, `build_auth_url` does not
return the claimed string with the redirect URI unencoded, because `urlencode`
percent-escapes the colon and slashes of the value. -/
theorem auth_url_example_not_unencoded :
    build_auth_url (strToCodes "12345") (strToCodes "https://example.com/callback") ≠
      strToCodes "https://www.strava.com/oauth/authorize?client_id=12345&redirect_uri=https://example.com/callback&response_type=code&scope=read%2Cactivity%3Aread%2Cactivity%3Awrite" := by
  decide

/-- C2 as amended: on the example input, `build_auth_url` returns the URL
with the redirect URI percent-encoded in the query string. -/
theorem auth_url_example_encoded :
    build_auth_url (strToCodes "12345") (strToCodes "https://example.com/callback") =
      strToCodes "https://www.strava.com/oauth/authorize?client_id=12345&redirect_uri=https%3A%2F%2Fexample.com%2Fcallback&response_type=code&scope=read%2Cactivity%3Aread%2Cactivity%3Awrite" := by
  decide

/-- C3: on an HTTP 200 response whose activity objects all carry a `type`
key, `get_yoga_activities` returns exactly the subsequence with type equal to
the string Yoga, in the original order, with no other elements. -/
theorem fetch_filters_yoga (access_token : PyVal) (after : Int) (acts : List Activity)
    (h : ∀ a ∈ acts, a.type.isSome = true) :
    get_yoga_activities access_token after { status_code := 200, body := acts } =
      .ok (acts.filter (fun a => a.type == some (strToCodes "Yoga"))) := by
  simpa [get_yoga_activities] using filterYoga_eq_filter acts h

/-- C3 witness: the sample array of the repository's test, filtered to its
two Yoga entries. -/
theorem fetch_filters_yoga_witness :
    get_yoga_activities (PyVal.str (strToCodes "dummy_token")) 12345
      { status_code := 200,
        body := [{ id := some 1, name := some (strToCodes "Morning Run"), type := some (strToCodes "Run") },
                 { id := some 2, name := some (strToCodes "Evening Yoga"), type := some (strToCodes "Yoga") },
                 { id := some 3, name := some (strToCodes "#yogamitmady"), type := some (strToCodes "Yoga") }] } =
      .ok [{ id := some 2, name := some (strToCodes "Evening Yoga"), type := some (strToCodes "Yoga") },
           { id := some 3, name := some (strToCodes "#yogamitmady"), type := some (strToCodes "Yoga") }] := by
  rw [fetch_filters_yoga (PyVal.str (strToCodes "dummy_token")) 12345 _ (by decide)]
  rfl

/-- C4: the rename loop invokes the Activity Updater once per fetched
activity whose name differs from the target name and zero times for the
rest, in order; in particular, on the spec example it renames id 2 and skips
id 3. -/
theorem rename_loop_calls (acts : List Activity)
    (h : ∀ a ∈ acts, a.name.isSome = true ∧ a.id.isSome = true) :
    rename_loop acts =
      ((acts.filter (fun a => a.name != some NEW_NAME)).map (fun a => (a.id.getD 0, NEW_NAME)),
        Option.none) ∧
    rename_loop [{ id := some 2, name := some (strToCodes "Evening Yoga"), type := some (strToCodes "Yoga") },
                 { id := some 3, name := some (strToCodes "#yogamitmady"), type := some (strToCodes "Yoga") }] =
      ([(2, NEW_NAME)], Option.none) :=
  ⟨rename_loop_eq_filter acts h, by decide⟩

/-- C4 witness: the general part applied to the example list itself. -/
theorem rename_loop_calls_witness :
    rename_loop [{ id := some 2, name := some (strToCodes "Evening Yoga"), type := some (strToCodes "Yoga") },
                 { id := some 3, name := some (strToCodes "#yogamitmady"), type := some (strToCodes "Yoga") }] =
      ((([{ id := some 2, name := some (strToCodes "Evening Yoga"), type := some (strToCodes "Yoga") },
          { id := some 3, name := some (strToCodes "#yogamitmady"), type := some (strToCodes "Yoga") }] :
            List Activity).filter
           (fun a => a.name != some NEW_NAME)).map (fun a => (a.id.getD 0, NEW_NAME)),
        Option.none) :=
  (rename_loop_calls _ (by decide)).1

/-- C5: on any non-200 response the Activity Fetcher returns the empty list
and raises nothing. -/
theorem fetch_non200_empty (access_token : PyVal) (after : Int) (resp : ListResponse)
    (h : resp.status_code ≠ 200) :
    get_yoga_activities access_token after resp = .ok [] := by
  simp [get_yoga_activities, h]

/-- C5 witness: a concrete 500 response with a non-empty body still yields
the empty list. -/
theorem fetch_non200_empty_witness :
    get_yoga_activities (PyVal.str []) 0
      { status_code := 500,
        body := [{ id := some 7, name := some (strToCodes "x"), type := some (strToCodes "Yoga") }] } =
      .ok [] :=
  fetch_non200_empty (PyVal.str []) 0 _ (by decide)

/-- C6: both token endpoints log the error body and return the empty
dictionary on non-200, and return the parsed body on 200, never raising. -/
theorem token_endpoints_error_handling (cid csec code rt : List Nat) (resp : TokenResponse) :
    (resp.status_code ≠ 200 →
      get_strava_tokens cid csec code resp = ([], [resp.body]) ∧
      refresh_strava_token cid csec rt resp = ([], [resp.body])) ∧
    (resp.status_code = 200 →
      get_strava_tokens cid csec code resp = (resp.body, []) ∧
      refresh_strava_token cid csec rt resp = (resp.body, [])) := by
  refine ⟨fun h => ⟨?_, ?_⟩, fun h => ⟨?_, ?_⟩⟩ <;>
    simp [get_strava_tokens, refresh_strava_token, h]

/-- C6 witness: a concrete 400 exchange returns the empty dictionary and logs
the body. -/
theorem token_endpoints_error_handling_witness :
    get_strava_tokens [] [] []
      { status_code := 400, body := [(strToCodes "message", PyVal.str (strToCodes "Bad Request"))] } =
      ([], [[(strToCodes "message", PyVal.str (strToCodes "Bad Request"))]]) :=
  ((token_endpoints_error_handling [] [] [] []
      { status_code := 400,
        body := [(strToCodes "message", PyVal.str (strToCodes "Bad Request"))] }).1 (by decide)).1

/-- C7: every invocation of the Activity Updater issues exactly one PUT
request, whatever the response status, and returns nothing else the caller
consumes. -/
theorem updater_one_put_per_call (access_token : PyVal) (activity_id : Int)
    (new_name : List Nat) (response_status : Nat) :
    (update_activity_name access_token activity_id new_name response_status).1.length = 1 := by
  unfold update_activity_name
  by_cases h : response_status = 200 <;> simp [h]

/-- C8: for all scalar-value inputs, parsing the query string of the URL
built by `build_auth_url` yields exactly the four-entry mapping with the
original client id and redirect URI, a response_type of code, and the fixed
scope. -/
theorem auth_url_query_roundtrip (client_id redirect_uri : List Nat)
    (h1 : ∀ n ∈ client_id, validCP n) (h2 : ∀ n ∈ redirect_uri, validCP n) :
    parse_query (query_string (build_auth_url client_id redirect_uri)) =
      [(strToCodes "client_id", client_id),
       (strToCodes "redirect_uri", redirect_uri),
       (strToCodes "response_type", strToCodes "code"),
       (strToCodes "scope", strToCodes "read,activity:read,activity:write")] := by
  have hbase : strToCodes "https://www.strava.com/oauth/authorize?" =
      strToCodes "https://www.strava.com/oauth/authorize" ++ [63] := by decide
  unfold build_auth_url query_string
  rw [hbase, List.append_assoc, List.singleton_append,
    splitFirst_append 63 _ _ (by decide)]
  rw [show ((strToCodes "https://www.strava.com/oauth/authorize",
      urlencode [(strToCodes "client_id", client_id),
                 (strToCodes "redirect_uri", redirect_uri),
                 (strToCodes "response_type", strToCodes "code"),
                 (strToCodes "scope", strToCodes "read,activity:read,activity:write")])).2 =
      urlencode [(strToCodes "client_id", client_id),
                 (strToCodes "redirect_uri", redirect_uri),
                 (strToCodes "response_type", strToCodes "code"),
                 (strToCodes "scope", strToCodes "read,activity:read,activity:write")] from rfl]
  rw [parse_query_four]
  rw [unquote_plus_quote_plus (strToCodes "client_id") (by decide),
    unquote_plus_quote_plus client_id h1,
    unquote_plus_quote_plus (strToCodes "redirect_uri") (by decide),
    unquote_plus_quote_plus redirect_uri h2,
    unquote_plus_quote_plus (strToCodes "response_type") (by decide),
    unquote_plus_quote_plus (strToCodes "code") (by decide),
    unquote_plus_quote_plus (strToCodes "scope") (by decide),
    unquote_plus_quote_plus (strToCodes "read,activity:read,activity:write") (by decide)]

/-- C8 witness: the round trip applied at the spec example's concrete inputs. -/
theorem auth_url_query_roundtrip_witness :
    parse_query (query_string (build_auth_url (strToCodes "12345")
        (strToCodes "https://example.com/callback"))) =
      [(strToCodes "client_id", strToCodes "12345"),
       (strToCodes "redirect_uri", strToCodes "https://example.com/callback"),
       (strToCodes "response_type", strToCodes "code"),
       (strToCodes "scope", strToCodes "read,activity:read,activity:write")] :=
  auth_url_query_roundtrip (strToCodes "12345") (strToCodes "https://example.com/callback")
    (by decide) (by decide)

/-- C9 counterexample: an environment in which `STRAVA_REFRESH_TOKEN` is set
(to the empty string) where the run still writes the persisted file, because
the code tests truthiness, not presence. -/
theorem set_env_token_still_writes :
    emptyEnvTokenWorld.env.STRAVA_REFRESH_TOKEN.isSome = true ∧
    (run_main emptyEnvTokenWorld).set_key_calls ≠ [] := by
  decide

/-- C9 as amended: every run writes the persisted file at most once, and a
run whose `STRAVA_REFRESH_TOKEN` environment variable is set to a non-empty
string writes it not at all. -/
theorem env_file_written_at_most_once (w : World) :
    (run_main w).set_key_calls.length ≤ 1 ∧
    (truthy w.env.STRAVA_REFRESH_TOKEN = true → (run_main w).set_key_calls = []) := by
  obtain ⟨⟨ocid, ocsec, ort⟩, ac, ex, re, ar⟩ := w
  cases ocid with
  | none => exact ⟨by simp [run_main], fun _ => by simp [run_main]⟩
  | some cid =>
    cases ocsec with
    | none => exact ⟨by simp [run_main], fun _ => by simp [run_main]⟩
    | some csec =>
      by_cases ht : truthy ort = true
      · constructor
        · simp [run_main, ht, run_rest_set_key_calls]
        · intro _; simp [run_main, ht, run_rest_set_key_calls]
      · have ht' : truthy ort = false := by simpa using ht
        constructor
        · simp only [run_main, ht', if_pos rfl]
          cases dictGet (get_strava_tokens cid csec ac ex).1 (strToCodes "refresh_token")
              (PyVal.str []) <;>
            simp [run_rest_set_key_calls]
        · intro hcontra
          exact absurd hcontra ht

/-- C9 witness for the amended claim: with a non-empty refresh token in the
environment the run performs no `set_key` write. -/
theorem env_file_written_at_most_once_witness :
    (run_main presetTokenWorld).set_key_calls = [] :=
  (env_file_written_at_most_once presetTokenWorld).2 (by decide)

/-- C10: on HTTP 200 the fetcher is total whenever every activity object has
a `type` key, and a 200 response containing an element without one makes it
raise a `KeyError` instead of returning a list. -/
theorem fetch_requires_type_key :
    (∀ (access_token : PyVal) (after : Int) (acts : List Activity),
      (∀ a ∈ acts, a.type.isSome = true) →
      ∃ l, get_yoga_activities access_token after { status_code := 200, body := acts } = .ok l) ∧
    get_yoga_activities (PyVal.str []) 0
      { status_code := 200,
        body := [{ id := some 1, name := some (strToCodes "x"), type := Option.none }] } =
      .error (strToCodes "KeyError: type") := by
  constructor
  · intro access_token after acts h
    exact ⟨_, by simpa [get_yoga_activities] using filterYoga_eq_filter acts h⟩
  · rfl

/-- C10 witness: the total part applied to a concrete well-formed response. -/
theorem fetch_requires_type_key_witness :
    ∃ l, get_yoga_activities (PyVal.str []) 0
      { status_code := 200,
        body := [{ id := some 4, name := some (strToCodes "a"), type := some (strToCodes "Run") }] } =
      .ok l :=
  fetch_requires_type_key.1 (PyVal.str []) 0 _ (by decide)

end MadyMyStrava
